import Mathlib

/-!
# SpectrographRenderer

A shallow embedding of `SpectrographRenderer.cpp` / `SpectrographRenderer.h`
and the properties of the render session that follow from it.

Conventions of the embedding

* Sample counts, block sizes and buffer indices are natural numbers; pixel
  coordinates and widths are integers.  The arithmetic of `int`, `int64` and
  of integer-valued `float`s is taken without overflow or rounding (sample
  counts below `2^31`, widths and block counts below `2^24`).
* An audio buffer row is a function from index to sample.  Entries beyond the
  allocated size stand for whatever memory follows the row.
* The windowing table, the forward transform and the colour law are
  floating-point library code; the state machine takes them from a `Host`
  record.  The level formula of the pixel mapper is modelled separately over
  the reals.
* Members the constructor leaves uninitialised are inputs of `create`.
* The float member `widthToCover` is an `Option`: `none` stands for a value that
  is not finite (division by a zero block count).  Its conversion to `int` is
  then the value `nonFiniteAsInt` of the `Host` record.
* A loop that the source may run forever takes a fuel argument and returns
  `none` when the fuel runs out.
* Three history fields (`notified`, `blocks`, `fftInput`) record what the
  code did; they never influence it.
-/

namespace SpectrographRenderer

/-! ## Data model -/

/-- Sample value held in an audio buffer (a `float` in the source; buffers only copy them). -/
abbrev Sample := Int

/-- Pixel colour stored in the image. -/
abbrev Colour := Int

/-- Value of `fftOrder` in the enum of the header. -/
def fftOrder : Nat := 10

/-- Value of `fftSize = 1 << fftOrder` in the enum of the header. -/
def fftSize : Nat := 1 <<< fftOrder

/-- The `juce::AudioFormatReader` the session reads from: channel count, length and
the stored samples indexed by channel and position. -/
structure AudioFormatReader where
  numChannels : Nat
  lengthInSamples : Nat
  samples : Nat → Nat → Sample

/-- The call `formatReader->read (&buffer, startSampleInDestBuffer, numSamples,
readerStartSample, true, true)` on a one-channel destination buffer.  The call does not
name a channel: a one-channel destination receives the reader's left channel (channel 0),
and positions past the end of the file are filled with silence. -/
def AudioFormatReader.read (r : AudioFormatReader) (buffer : Nat → Sample)
    (startSampleInDestBuffer numSamples readerStartSample : Nat) : Nat → Sample :=
  fun i =>
    if startSampleInDestBuffer ≤ i ∧ i < startSampleInDestBuffer + numSamples then
      (if readerStartSample + (i - startSampleInDestBuffer) < r.lengthInSamples then
        r.samples 0 (readerStartSample + (i - startSampleInDestBuffer))
      else 0)
    else buffer i

/-- The call `dest.copyFrom (0, 0, source, ch, 0, numSamples)`, also `memcpy` of
`numSamples` floats: the first `numSamples` entries of `dest` are overwritten. -/
def copyFrom (dest source : Nat → Sample) (numSamples : Nat) : Nat → Sample :=
  fun i => if i < numSamples then source i else dest i

/-- A `juce::Image`: its size and its pixels. -/
structure Image where
  width : Int
  height : Int
  pixel : Int → Int → Colour

/-- The default-constructed (null) image held before `setImageSize` is called. -/
def Image.null : Image := { width := 0, height := 0, pixel := fun _ _ => 0 }

/-- The call `Image::setPixelAt (x, y, colour)`: writes one pixel, and does nothing when
the coordinates lie outside the image. -/
def Image.setPixelAt (img : Image) (x y : Int) (colour : Colour) : Image :=
  if 0 ≤ x ∧ x < img.width ∧ 0 ≤ y ∧ y < img.height then
    { img with pixel := fun px py => if px = x ∧ py = y then colour else img.pixel px py }
  else img

/-- The call `Image::moveImageSection (dx, dy, sx, sy, w, h)`: copies the `w × h` section
whose top-left corner is `(sx, sy)` to `(dx, dy)` inside the same image, after clipping the
section to the image as the library does. -/
def Image.moveImageSection (img : Image) (dx dy sx sy w h : Int) : Image :=
  let w1 := if dx < 0 then w + dx else w
  let sx1 := if dx < 0 then sx - dx else sx
  let dx1 := if dx < 0 then 0 else dx
  let h1 := if dy < 0 then h + dy else h
  let sy1 := if dy < 0 then sy - dy else sy
  let dy1 := if dy < 0 then 0 else dy
  let w2 := if sx1 < 0 then w1 + sx1 else w1
  let dx2 := if sx1 < 0 then dx1 - sx1 else dx1
  let sx2 := if sx1 < 0 then 0 else sx1
  let h2 := if sy1 < 0 then h1 + sy1 else h1
  let dy2 := if sy1 < 0 then dy1 - sy1 else dy1
  let sy2 := if sy1 < 0 then 0 else sy1
  let w3 := min w2 (img.width - max sx2 dx2)
  let h3 := min h2 (img.height - max sy2 dy2)
  if 0 < w3 ∧ 0 < h3 then
    { img with
      pixel := fun x y =>
        if dx2 ≤ x ∧ x < dx2 + w3 ∧ dy2 ≤ y ∧ y < dy2 + h3 then
          img.pixel (x - dx2 + sx2) (y - dy2 + sy2)
        else img.pixel x y }
  else img

/-- Floating-point and allocator behaviour the session depends on but does not define. -/
structure Host where
  /-- Contents of a newly allocated `AudioBuffer` (the library leaves them undefined). -/
  freshBuffer : Nat → Sample
  /-- Window multiplication followed by the frequency-only forward transform, applied to
  the scratch vector of `ApplyFFT`. -/
  forwardTransform : (Nat → Sample) → (Nat → Sample)
  /-- Colour of image row `y` computed from the scope data of the block (the skewed bin,
  its level against the block maximum, and `Colour::fromHSV`). -/
  rowColour : (Nat → Sample) → Int → Int → Colour
  /-- The `int` obtained when a non-finite `float` is converted. -/
  nonFiniteAsInt : Int

/-- One iteration of the render loop, as recorded in the history of the session. -/
structure BlockRecord where
  sampleIndex : Nat
  numSamplesToRead : Nat
  numSamplesLeft : Nat
  widthToCover : Option Int
  deriving DecidableEq, Repr

/-- The members of `SpectrographRenderer`, followed by the history fields.  The float
member `widthToCover` is `none` when it is not a finite number (NaN or infinite). -/
structure Renderer where
  listeners : List Nat
  spectrographImage : Image
  complete : Bool
  formatReader : AudioFormatReader
  scopeData : Nat → Nat → Sample
  scopeChannels : Nat
  scopeSamples : Nat
  numTimesToRunFFT : Nat
  numSamplesInBuffer : Nat
  spectroGraphBlockSize : Nat
  widthToCover : Option Int
  lastXPosition : Int
  currentXPosition : Int
  endOfFile : Bool
  /-- History: every `OnComplete` invocation, by listener, in order. -/
  notified : List Nat
  /-- History: one record per executed iteration of the render loop. -/
  blocks : List BlockRecord
  /-- History: the buffer most recently handed to the window and the transform. -/
  fftInput : Nat → Sample

/-- Values of the members the constructor does not initialise. -/
structure Uninit where
  scopeData : Nat → Nat → Sample
  numSamplesInBuffer : Nat
  widthToCover : Option Int
  lastXPosition : Int
  currentXPosition : Int

/-- Conversion of the float `widthToCover` (or a float sum) to `int`. -/
def floatToInt (host : Host) (v : Option Int) : Int :=
  match v with
  | some n => n
  | none => host.nonFiniteAsInt

/-- The ceiling of the quotient `a / b`, for a positive divisor `b`. -/
def ceilDiv (a : Int) (b : Nat) : Int := -((-a) / (b : Int))

/-! ## Operations -/

/-- The constructor `SpectrographRenderer (file, blockSize)`, for a file whose reader
source opens.  The block count is `std::ceil` applied to the integer quotient
`totalNumSamples / spectroGraphBlockSize`, which is already a whole number. -/
def create (file : AudioFormatReader) (blockSize : Nat) (u : Uninit) : Renderer :=
  let spectroGraphBlockSize := blockSize * 2
  let totalNumSamples := file.lengthInSamples
  { listeners := []
    spectrographImage := Image.null
    complete := false
    formatReader := file
    scopeData := u.scopeData
    scopeChannels := file.numChannels
    scopeSamples := spectroGraphBlockSize
    numTimesToRunFFT := totalNumSamples / spectroGraphBlockSize
    numSamplesInBuffer := u.numSamplesInBuffer
    spectroGraphBlockSize := spectroGraphBlockSize
    widthToCover := u.widthToCover
    lastXPosition := u.lastXPosition
    currentXPosition := u.currentXPosition
    endOfFile := false
    notified := []
    blocks := []
    fftInput := fun _ => 0 }

/-- The method `AddListener`: the listener list holds each listener at most once. -/
def AddListener (s : Renderer) (listener : Nat) : Renderer :=
  if listener ∈ s.listeners then s else { s with listeners := s.listeners ++ [listener] }

/-- The method `RemoveListener`. -/
def RemoveListener (s : Renderer) (listener : Nat) : Renderer :=
  { s with listeners := s.listeners.erase listener }

/-- The method `setImageSize`: a new cleared image of the given size. -/
def setImageSize (s : Renderer) (newWidth newHeight : Int) : Renderer :=
  { s with spectrographImage := { width := newWidth, height := newHeight, pixel := fun _ _ => 0 } }

/-- The method `getNumTimesToRunFFT`. -/
def getNumTimesToRunFFT (s : Renderer) : Int := s.numTimesToRunFFT

/-- The accessor `IsComplete`. -/
def IsComplete (s : Renderer) : Bool := s.complete

/-- The accessor `GetImage`. -/
def GetImage (s : Renderer) : Image := s.spectrographImage

/-- The scratch vector of `ApplyFFT` after the first `memcpy`: `2 * fftSize` zeros whose
first `fftSize` entries are overwritten with `bufferData[0 .. fftSize)`. -/
def fftBufferOf (bufferData : Nat → Sample) : Nat → Sample :=
  fun i => if i < fftSize then bufferData i else 0

/-- The method `ApplyFFT`. -/
def ApplyFFT (host : Host) (s : Renderer) (bufferData : Nat → Sample) (numSamples : Nat)
    (channel : Nat) : Renderer :=
  let fftBuffer := fftBufferOf bufferData
  let spectrum := host.forwardTransform fftBuffer
  let row1 := copyFrom (s.scopeData channel) spectrum fftSize
  let row2 := copyFrom row1 spectrum numSamples
  { s with scopeData := Function.update s.scopeData channel row2, fftInput := fftBuffer }

/-- The row loop of `drawNextBlockOfSpectrogram`: for `y` from 1 below `imageHeight`, the
pixel `(currentXPosition, y)` is written when `currentXPosition != lastXPosition`. -/
def drawRows (host : Host) (img : Image) (scopeDataChannel : Nat → Sample)
    (currentXPosition lastXPosition imageHeight : Int) : Image :=
  (List.range (imageHeight.toNat - 1)).foldl
    (fun (im : Image) (k : Nat) =>
      if currentXPosition ≠ lastXPosition then
        im.setPixelAt currentXPosition ((k : Int) + 1)
          (host.rowColour scopeDataChannel imageHeight ((k : Int) + 1))
      else im)
    img

/-- The value of the float member `widthToCover` computed by
`drawNextBlockOfSpectrogram`: `ceil ((imageWidth / numTimesToRunFFT) * widthFraction)` with
`imageWidth = getWidth() - 1` and `widthFraction` the integer quotient
`numSamplesToProcess / numSamplesInBuffer`.  With `numTimesToRunFFT = 0` the float
division is by zero and the result is not a finite number. -/
def columnsOf (s : Renderer) (numSamplesToProcess : Nat) : Option Int :=
  let imageWidth : Int := s.spectrographImage.width - 1
  let widthFraction : Nat := numSamplesToProcess / s.numSamplesInBuffer
  if s.numTimesToRunFFT = 0 then none
  else some (ceilDiv (imageWidth * (widthFraction : Int)) s.numTimesToRunFFT)

/-- The method `drawNextBlockOfSpectrogram`. -/
def drawNextBlockOfSpectrogram (host : Host) (s : Renderer) (channel : Nat)
    (bufferChannel : Nat → Sample) (_timesExecuted numSamplesToProcess : Nat) : Renderer :=
  let imageHeight := s.spectrographImage.height
  let widthToCover := columnsOf s numSamplesToProcess
  let moved := s.spectrographImage.moveImageSection 0 0 1 0 (floatToInt host widthToCover) imageHeight
  let s1 := ApplyFFT host { s with widthToCover := widthToCover, spectrographImage := moved }
    bufferChannel fftSize channel
  let drawn := drawRows host s1.spectrographImage (s1.scopeData channel)
    s1.currentXPosition s1.lastXPosition imageHeight
  { s1 with
    spectrographImage := drawn
    currentXPosition := s1.lastXPosition
    lastXPosition := floatToInt host (widthToCover.map (fun w => s1.lastXPosition + w)) }

/-- The channel loop of `doRender`: for each channel a new one-channel buffer receives a
copy of the scope data, is filled by the reader, and is copied over the start of
`summedBuffer`. -/
def readChannels (host : Host) (s : Renderer) (numChannels numSamplesToRead sampleIndex : Nat)
    (summedBuffer : Nat → Sample) : Nat → Sample :=
  (List.range numChannels).foldl
    (fun (summed : Nat → Sample) (channel : Nat) =>
      let singleChannel := copyFrom host.freshBuffer (s.scopeData channel) numSamplesToRead
      let singleChannel := s.formatReader.read singleChannel 0 numSamplesToRead sampleIndex
      copyFrom summed singleChannel numSamplesToRead)
    summedBuffer

/-- The local variables of `doRender` that live across iterations of its loop. -/
structure LoopVars where
  sampleIndex : Nat
  numSamplesLeft : Nat
  timesExecuted : Nat
  numSamplesToRead : Nat
  summedBuffer : Nat → Sample

/-- The body of the `while` loop of `doRender`. -/
def renderBody (host : Host) (numChannels : Nat) (v : LoopVars) (s : Renderer) :
    LoopVars × Renderer :=
  let numSamplesToRead :=
    if v.numSamplesLeft < s.spectroGraphBlockSize then v.numSamplesLeft else v.numSamplesToRead
  let summedBuffer := readChannels host s numChannels numSamplesToRead v.sampleIndex v.summedBuffer
  let s1 := drawNextBlockOfSpectrogram host s 0 summedBuffer v.timesExecuted numSamplesToRead
  let sampleIndex := v.sampleIndex + numSamplesToRead
  let numSamplesLeft := v.numSamplesLeft - numSamplesToRead
  let s2 := if numSamplesLeft = 0 then { s1 with endOfFile := true } else s1
  let s3 := { s2 with
    blocks := s2.blocks ++ [{ sampleIndex := v.sampleIndex, numSamplesToRead := numSamplesToRead,
                              numSamplesLeft := v.numSamplesLeft, widthToCover := s1.widthToCover }] }
  ({ sampleIndex := sampleIndex, numSamplesLeft := numSamplesLeft,
     timesExecuted := v.timesExecuted + 1, numSamplesToRead := numSamplesToRead,
     summedBuffer := summedBuffer }, s3)

/-- The `while (numSamplesLeft > 0)` loop of `doRender`, run for at most `fuel` iterations;
`none` when the loop has not exited by then. -/
def renderLoop (host : Host) (numChannels : Nat) : Nat → LoopVars → Renderer →
    Option (LoopVars × Renderer)
  | 0, v, s => if 0 < v.numSamplesLeft then none else some (v, s)
  | fuel + 1, v, s =>
    if 0 < v.numSamplesLeft then
      renderLoop host numChannels fuel (renderBody host numChannels v s).1
        (renderBody host numChannels v s).2
    else some (v, s)

/-- The local variables of `doRender` on entry to its loop. -/
def initVars (host : Host) (s : Renderer) : LoopVars :=
  { sampleIndex := 0
    numSamplesLeft := s.formatReader.lengthInSamples
    timesExecuted := 1
    numSamplesToRead := s.spectroGraphBlockSize
    summedBuffer := host.freshBuffer }

/-- The completion step at the end of `doRender`: when `endOfFile` is set, `complete`
becomes true and every listener receives `OnComplete`. -/
def finish (s : Renderer) : Renderer :=
  if s.endOfFile then { s with complete := true, notified := s.notified ++ s.listeners } else s

/-- The method `doRender`. -/
def doRender (host : Host) (fuel : Nat) (s : Renderer) : Option Renderer :=
  let s0 := { s with numSamplesInBuffer := s.scopeSamples }
  match renderLoop host s0.scopeChannels fuel (initVars host s0) s0 with
  | none => none
  | some r => some (finish r.2)

/-- The method `useTimeSlice`: the session after the call and the returned delay. -/
def useTimeSlice (host : Host) (fuel : Nat) (s : Renderer) : Option (Renderer × Int) :=
  let s0 := { s with scopeChannels := s.formatReader.numChannels,
                     scopeSamples := s.spectroGraphBlockSize }
  if !s0.complete then
    match doRender host fuel s0 with
    | none => none
    | some s1 => some (s1, 0)
  else some (s0, 0)

/-- The session after `n` successive calls of `useTimeSlice`. -/
def timeSlices (host : Host) (fuel : Nat) : Nat → Renderer → Option Renderer
  | 0, s => some s
  | n + 1, s =>
    match useTimeSlice host fuel s with
    | none => none
    | some r => timeSlices host fuel n r.1


/-! ## Closed forms used in the statements -/

/-- The members that neither the render loop nor the drawing of a block changes. -/
def SameSetup (s t : Renderer) : Prop :=
  t.listeners = s.listeners ∧ t.complete = s.complete ∧ t.formatReader = s.formatReader ∧
  t.scopeChannels = s.scopeChannels ∧ t.scopeSamples = s.scopeSamples ∧
  t.numTimesToRunFFT = s.numTimesToRunFFT ∧ t.numSamplesInBuffer = s.numSamplesInBuffer ∧
  t.spectroGraphBlockSize = s.spectroGraphBlockSize ∧ t.notified = s.notified ∧
  t.spectrographImage.width = s.spectrographImage.width ∧
  t.spectrographImage.height = s.spectrographImage.height

/-- The session as the render loop of `useTimeSlice` sees it: `scopeData` sized to the
reader's channel count and the block size, and `numSamplesInBuffer` read from it. -/
def prepared (s : Renderer) : Renderer :=
  { s with scopeChannels := s.formatReader.numChannels
           scopeSamples := s.spectroGraphBlockSize
           numSamplesInBuffer := s.spectroGraphBlockSize }

/-! ## Concrete sessions -/

/-- A host whose new buffers hold zeros, whose transform is the identity and whose colour
law paints every row with colour 7. -/
def host0 : Host :=
  { freshBuffer := fun _ => 0, forwardTransform := fun b => b, rowColour := fun _ _ _ => 7,
    nonFiniteAsInt := 0 }

/-- Uninitialised members that all happen to be zero. -/
def uninit0 : Uninit :=
  { scopeData := fun _ _ => 0, numSamplesInBuffer := 0, widthToCover := some 0,
    lastXPosition := 0, currentXPosition := 0 }

/-- A file of `channels` channels and `len` samples per channel, every sample equal to 1. -/
def onesFile (channels len : Nat) : AudioFormatReader :=
  { numChannels := channels, lengthInSamples := len, samples := fun _ _ => 1 }

/-- A session on a one-channel file of `len` ones, constructed with block unit `unit`, one
listener (number 0) and an image of `w × h` pixels. -/
def onesSession (len unit : Nat) (w h : Int) : Renderer :=
  AddListener (setImageSize (create (onesFile 1 len) unit uninit0) w h) 0

/-- A session on a two-channel file of 2 ones per channel, block unit 1, image `4 × 2`. -/
def stereoSession : Renderer :=
  setImageSize (create (onesFile 2 2) 1 uninit0) 4 2

/-- The library function `juce::jlimit (lowerLimit, upperLimit, valueToConstrain)`. -/
def jlimit (lowerLimit upperLimit valueToConstrain : Int) : Int :=
  if valueToConstrain < lowerLimit then lowerLimit
  else if upperLimit < valueToConstrain then upperLimit
  else valueToConstrain

/-- The library function `juce::jmax (a, b)`. -/
noncomputable def jmax (a b : ℝ) : ℝ := if a < b then b else a

/-- The five-argument library function `juce::jmap`. -/
noncomputable def jmap (sourceValue sourceRangeMin sourceRangeMax targetRangeMin
    targetRangeMax : ℝ) : ℝ :=
  targetRangeMin +
    ((targetRangeMax - targetRangeMin) * (sourceValue - sourceRangeMin)) /
      (sourceRangeMax - sourceRangeMin)

/-- The conversion `(int) x` of a float: truncation towards zero. -/
noncomputable def truncToInt (x : ℝ) : Int := if 0 ≤ x then ⌊x⌋ else ⌈x⌉

/-- The value `skewedProportionY` of row `y`:
`1.0f - std::exp (std::log ((float) y / (float) imageHeight) * 0.2f)`. -/
noncomputable def skewedProportionY (y imageHeight : Int) : ℝ :=
  1 - Real.exp (Real.log ((y : ℝ) / (imageHeight : ℝ)) * 0.2)

/-- The value `scopeDataIndex` of row `y`:
`jlimit (0, fftSize / 2, (int) (skewedProportionY * fftSize / 2))`. -/
noncomputable def scopeDataIndex (y imageHeight : Int) : Nat :=
  (jlimit 0 ((fftSize / 2 : Nat) : Int)
    (truncToInt (skewedProportionY y imageHeight * (fftSize : ℝ) / 2))).toNat

/-- The end of the range `findMinAndMax (scopeData, fftSize / 2)`: the largest of the
first `fftSize / 2` entries. -/
noncomputable def maxLevelEnd (scope : Nat → ℝ) : ℝ :=
  (List.range (fftSize / 2)).foldl (fun (m : ℝ) (i : Nat) => max m (scope i)) (scope 0)

/-- The divisor of the normalisation: `jmax (maxLevel.getEnd(), 1e-5f)`. -/
noncomputable def levelDivisor (scope : Nat → ℝ) : ℝ := jmax (maxLevelEnd scope) 1e-5

/-- The value `level` of row `y`:
`jmap (scopeDataChannel[scopeDataIndex], 0.0f, jmax (maxLevel.getEnd(), 1e-5f), 0.0f, 1.0f)`. -/
noncomputable def level (scope : Nat → ℝ) (y imageHeight : Int) : ℝ :=
  jmap (scope (scopeDataIndex y imageHeight)) 0 (levelDivisor scope) 0 1

/-! ## Frame lemmas -/

theorem SameSetup.trans {s t u : Renderer} (h1 : SameSetup s t) (h2 : SameSetup t u) :
    SameSetup s u := by
  obtain ⟨a1, a2, a3, a4, a5, a6, a7, a8, a9, a10, a11⟩ := h1
  obtain ⟨b1, b2, b3, b4, b5, b6, b7, b8, b9, b10, b11⟩ := h2
  exact ⟨b1.trans a1, b2.trans a2, b3.trans a3, b4.trans a4, b5.trans a5, b6.trans a6,
    b7.trans a7, b8.trans a8, b9.trans a9, b10.trans a10, b11.trans a11⟩

theorem renderLoop_done (host : Host) (numChannels fuel : Nat) (v : LoopVars) (s : Renderer)
    (h : v.numSamplesLeft = 0) : renderLoop host numChannels fuel v s = some (v, s) := by
  cases fuel <;> simp [renderLoop, h]

theorem prepared_blockSize (s : Renderer) :
    (prepared s).spectroGraphBlockSize = s.spectroGraphBlockSize := rfl

theorem useTimeSlice_empty (host : Host) (fuel : Nat) (s : Renderer)
    (hc : s.complete = false) (he : s.endOfFile = false)
    (h0 : s.formatReader.lengthInSamples = 0) :
    ∃ t, useTimeSlice host fuel s = some (t, 0) ∧ t.complete = false ∧ t.endOfFile = false ∧
      t.formatReader = s.formatReader ∧ t.notified = s.notified ∧
      t.listeners = s.listeners ∧ t.spectrographImage = s.spectrographImage ∧
      t.blocks = s.blocks := by
  have e : renderLoop host s.formatReader.numChannels fuel
      (initVars host { s with scopeChannels := s.formatReader.numChannels,
                              scopeSamples := s.spectroGraphBlockSize,
                              numSamplesInBuffer := s.spectroGraphBlockSize })
      { s with scopeChannels := s.formatReader.numChannels,
               scopeSamples := s.spectroGraphBlockSize,
               numSamplesInBuffer := s.spectroGraphBlockSize } =
      some (initVars host (prepared s), prepared s) :=
    renderLoop_done host _ fuel (initVars host (prepared s)) (prepared s) h0
  rw [hc] at e
  have u : useTimeSlice host fuel s = some (finish (prepared s), 0) := by
    simp [useTimeSlice, doRender, hc, e]
  refine ⟨finish (prepared s), u, ?_⟩
  simp [finish, prepared, he, hc]

theorem timeSlices_empty (host : Host) (fuel : Nat) :
    ∀ (n : Nat) (s : Renderer), s.complete = false → s.endOfFile = false →
      s.formatReader.lengthInSamples = 0 →
      ∃ t, timeSlices host fuel n s = some t ∧ t.complete = false ∧
        t.notified = s.notified ∧ t.listeners = s.listeners ∧
        t.spectrographImage = s.spectrographImage ∧ t.blocks = s.blocks := by
  intro n
  induction n with
  | zero => intro s hc _ _; exact ⟨s, rfl, hc, rfl, rfl, rfl, rfl⟩
  | succ n ih =>
    intro s hc he h0
    obtain ⟨t, t1, t2, t3, t4, t5, t6, t7, t8⟩ := useTimeSlice_empty host fuel s hc he h0
    obtain ⟨w, w1, w2, w3, w4, w5, w6⟩ := ih t t2 t3 (by rw [t4]; exact h0)
    refine ⟨w, ?_, w2, w3.trans t5, w4.trans t6, w5.trans t7, w6.trans t8⟩
    simp only [timeSlices, t1]
    exact w1

/-! ## The render loop and the step operation -/

/-- C3, what the code does: on a session whose source has no samples the loop body never
runs, `endOfFile` is never set, and any number of `useTimeSlice` calls leaves the image
untouched, leaves `complete` false and invokes no `OnComplete`. -/
theorem empty_file_never_completes (host : Host) (fuel n : Nat) (file : AudioFormatReader)
    (blockSize : Nat) (u : Uninit) (w h : Int) (listener : Nat) :
    ∃ t, timeSlices host fuel n
        (AddListener (setImageSize (create { file with lengthInSamples := 0 } blockSize u) w h)
          listener) = some t ∧
      t.complete = false ∧ t.notified = [] ∧ t.listeners = [listener] ∧
      t.spectrographImage =
        (setImageSize (create { file with lengthInSamples := 0 } blockSize u) w h).spectrographImage := by
  obtain ⟨t, t1, t2, t3, t4, t5, _⟩ := timeSlices_empty host fuel n
    (AddListener (setImageSize (create { file with lengthInSamples := 0 } blockSize u) w h)
      listener) rfl rfl rfl
  exact ⟨t, t1, t2, t3, t4, t5⟩

/-- C4, what the code does: the constructor sets the block size to twice the unit and the
block count to the integer quotient `totalSamples / blockSize`, rounded down; for 5 samples
and unit 1 it reports 2 blocks, which cover only 4 samples. -/
theorem getNumTimesToRunFFT_rounds_down :
    (∀ (file : AudioFormatReader) (blockSize : Nat) (u : Uninit),
      (create file blockSize u).spectroGraphBlockSize = 2 * blockSize ∧
      getNumTimesToRunFFT (create file blockSize u) =
        ((file.lengthInSamples / (2 * blockSize) : Nat) : Int)) ∧
    getNumTimesToRunFFT (create (onesFile 1 5) 1 uninit0) = 2 ∧
    (create (onesFile 1 5) 1 uninit0).spectroGraphBlockSize = 2 ∧
    ¬ ((onesFile 1 5).lengthInSamples ≤ 2 * (create (onesFile 1 5) 1 uninit0).spectroGraphBlockSize) := by
  refine ⟨?_, by decide, by decide, by decide⟩
  intro file blockSize u
  simp [create, getNumTimesToRunFFT, Nat.mul_comm]


/-! ## Column counts -/

theorem ceilDiv_bounds (a : Int) (b : Nat) (hb : 1 ≤ b) :
    a ≤ (b : Int) * ceilDiv a b ∧ (b : Int) * ceilDiv a b < a + b := by
  have hb0 : (0 : Int) < (b : Int) := by exact_mod_cast hb
  have h1 := Int.ediv_mul_le (-a) (ne_of_gt hb0)
  have h2 := Int.lt_ediv_add_one_mul_self (-a) hb0
  unfold ceilDiv
  have e : (b : Int) * -(-a / (b : Int)) = -((-a / (b : Int)) * b) := by ring
  have e2 : (-a / (b : Int) + 1) * b = (-a / (b : Int)) * b + b := by ring
  rw [e]
  rw [e2] at h2
  constructor <;> linarith

theorem ceilDiv_eq_ceil (a : Int) (b : Nat) (hb : 1 ≤ b) :
    ceilDiv a b = ⌈(a : ℚ) / (b : ℚ)⌉ := by
  have hb0 : (0 : ℚ) < (b : ℚ) := by exact_mod_cast hb
  obtain ⟨h1, h2⟩ := ceilDiv_bounds a b hb
  symm
  rw [Int.ceil_eq_iff]
  constructor
  · rw [lt_div_iff₀ hb0]
    have : ((b : Int) * ceilDiv a b : ℚ) < (a : ℚ) + (b : ℚ) := by exact_mod_cast h2
    push_cast at this ⊢
    linarith
  · rw [div_le_iff₀ hb0]
    have : (a : ℚ) ≤ ((b : Int) * ceilDiv a b : ℚ) := by exact_mod_cast h1
    push_cast at this ⊢
    linarith

theorem readChannels_tail (host : Host) (s : Renderer) (n cursor : Nat)
    (summed : Nat → Sample) (i : Nat) (hi : n ≤ i) :
    ∀ numChannels, readChannels host s numChannels n cursor summed i = summed i := by
  intro numChannels
  induction numChannels with
  | zero => rfl
  | succ k ih =>
    unfold readChannels at ih ⊢
    rw [List.range_succ, List.foldl_append, List.foldl_cons, List.foldl_nil]
    simp only [copyFrom]
    rw [if_neg (by omega)]
    exact ih

theorem readChannels_head (host : Host) (s : Renderer) (numChannels n cursor : Nat)
    (summed : Nat → Sample) (i : Nat) (hi : i < n) :
    readChannels host s (numChannels + 1) n cursor summed i =
      (if cursor + i < s.formatReader.lengthInSamples then s.formatReader.samples 0 (cursor + i)
       else 0) := by
  unfold readChannels
  rw [List.range_succ, List.foldl_append, List.foldl_cons, List.foldl_nil]
  simp only [copyFrom, AudioFormatReader.read]
  rw [if_pos hi, if_pos ⟨Nat.zero_le _, by omega⟩]
  simp

/-- C6, what the code does: with at least one channel the mono buffer handed to the
drawing holds, at every index below `numSamplesToRead`, the sample the reader delivers
into a one-channel buffer (its first channel), each channel pass overwriting the previous
one, and is unchanged beyond; for the two-channel file of ones the buffer holds 1 at
index 0 while the channel sum is 2. For one channel the samples pass through unchanged. -/
theorem readChannels_overwrites :
    (∀ (host : Host) (s : Renderer) (numChannels n cursor : Nat) (summed : Nat → Sample)
        (i : Nat),
      readChannels host s (numChannels + 1) n cursor summed i =
        if i < n then
          (if cursor + i < s.formatReader.lengthInSamples then
            s.formatReader.samples 0 (cursor + i) else 0)
        else summed i) ∧
    readChannels host0 (prepared stereoSession) 2 2 0 host0.freshBuffer 0 = 1 ∧
    ((List.range stereoSession.formatReader.numChannels).map
      (fun c => stereoSession.formatReader.samples c 0)).sum = 2 ∧
    (useTimeSlice host0 2 stereoSession).map (fun r => r.1.fftInput 0) = some 1 := by
  refine ⟨?_, by decide, by decide, by decide⟩
  intro host s numChannels n cursor summed i
  by_cases hi : i < n
  · rw [if_pos hi]; exact readChannels_head host s numChannels n cursor summed i hi
  · rw [if_neg hi]; exact readChannels_tail host s n cursor summed i (by omega) _

/-- C8, what the code does: `ApplyFFT` copies the first `fftSize` entries of the mono
buffer whatever the block length, and the channel loop overwrites only the first
`numSamplesToRead` entries of the mono buffer, so the entries from `numSamplesToRead` up to
`fftSize` handed to the window and the transform are what the buffer held before the block.
On a file of 1025 ones read in blocks of 1024, the last block reads 1 sample, and the buffer
handed to the transform still holds the previous block's samples (value 1) at indices 1
and 1023. -/
theorem fftInput_keeps_previous_block :
    (∀ (host : Host) (s : Renderer) (channel : Nat) (buf : Nat → Sample) (te n i : Nat),
      (drawNextBlockOfSpectrogram host s channel buf te n).fftInput i =
        if i < fftSize then buf i else 0) ∧
    (∀ (host : Host) (s : Renderer) (numChannels n cursor : Nat) (summed : Nat → Sample)
        (i : Nat),
      fftBufferOf (readChannels host s numChannels n cursor summed) i =
        if i < fftSize then
          (if i < n then readChannels host s numChannels n cursor summed i else summed i)
        else 0) ∧
    (useTimeSlice host0 1025 (onesSession 1025 512 4 2)).map
        (fun r => (r.1.blocks.map (fun b => (b.sampleIndex, b.numSamplesToRead)),
                   r.1.fftInput 0, r.1.fftInput 1, r.1.fftInput 1023)) =
      some ([(0, 1024), (1024, 1)], 1, 1, 1) := by
  refine ⟨?_, ?_, by decide⟩
  · intro host s channel buf te n i
    rfl
  · intro host s numChannels n cursor summed i
    unfold fftBufferOf
    by_cases h1 : i < fftSize
    · rw [if_pos h1, if_pos h1]
      by_cases h2 : i < n
      · rw [if_pos h2]
      · rw [if_neg h2]
        exact readChannels_tail host s n cursor summed i (by omega) numChannels
    · rw [if_neg h1, if_neg h1]

theorem fftSize_eq : fftSize = 1024 := by decide

theorem foldl_max_ge (scope : Nat → ℝ) :
    ∀ (ks : List Nat) (m : ℝ),
      m ≤ ks.foldl (fun (m : ℝ) (i : Nat) => max m (scope i)) m ∧
      ∀ i ∈ ks, scope i ≤ ks.foldl (fun (m : ℝ) (i : Nat) => max m (scope i)) m := by
  intro ks
  induction ks with
  | nil => intro m; simp
  | cons k ks ih =>
    intro m
    rw [List.foldl_cons]
    obtain ⟨h1, h2⟩ := ih (max m (scope k))
    refine ⟨le_trans (le_max_left _ _) h1, ?_⟩
    intro i hi
    rcases List.mem_cons.mp hi with rfl | hi2
    · exact le_trans (le_max_right _ _) h1
    · exact h2 i hi2

theorem le_maxLevelEnd (scope : Nat → ℝ) (i : Nat) (hi : i < fftSize / 2) :
    scope i ≤ maxLevelEnd scope :=
  (foldl_max_ge scope (List.range (fftSize / 2)) (scope 0)).2 i (List.mem_range.mpr hi)

theorem levelDivisor_bounds (scope : Nat → ℝ) :
    0 < levelDivisor scope ∧ maxLevelEnd scope ≤ levelDivisor scope := by
  unfold levelDivisor jmax
  split
  · exact ⟨by norm_num, by linarith⟩
  · rename_i h
    have : (0 : ℝ) < 1e-5 := by norm_num
    exact ⟨by linarith [not_lt.mp h], le_refl _⟩

theorem skewedProportionY_bounds (y imageHeight : Int) (hy1 : 1 ≤ y) (hy : y < imageHeight) :
    0 < skewedProportionY y imageHeight ∧ skewedProportionY y imageHeight < 1 := by
  have hyR : (0 : ℝ) < (y : ℝ) := by exact_mod_cast (by omega : (0 : Int) < y)
  have hHR : (0 : ℝ) < (imageHeight : ℝ) := by exact_mod_cast (by omega : (0 : Int) < imageHeight)
  have hlt : (y : ℝ) < (imageHeight : ℝ) := by exact_mod_cast hy
  have hr0 : 0 < (y : ℝ) / (imageHeight : ℝ) := div_pos hyR hHR
  have hr1 : (y : ℝ) / (imageHeight : ℝ) < 1 := (div_lt_one hHR).mpr hlt
  have hlog : Real.log ((y : ℝ) / (imageHeight : ℝ)) < 0 := Real.log_neg hr0 hr1
  have hneg : Real.log ((y : ℝ) / (imageHeight : ℝ)) * 0.2 < 0 := by
    apply mul_neg_of_neg_of_pos hlog; norm_num
  have he1 : Real.exp (Real.log ((y : ℝ) / (imageHeight : ℝ)) * 0.2) < 1 :=
    Real.exp_lt_one_iff.mpr hneg
  have he0 := Real.exp_pos (Real.log ((y : ℝ) / (imageHeight : ℝ)) * 0.2)
  unfold skewedProportionY
  constructor <;> linarith

theorem scopeDataIndex_lt (y imageHeight : Int) (hy1 : 1 ≤ y) (hy : y < imageHeight) :
    scopeDataIndex y imageHeight < fftSize / 2 := by
  obtain ⟨h0, h1⟩ := skewedProportionY_bounds y imageHeight hy1 hy
  have e : (fftSize : ℝ) = 1024 := by rw [fftSize_eq]; norm_num
  have hx0 : 0 ≤ skewedProportionY y imageHeight * (fftSize : ℝ) / 2 := by
    rw [e]; linarith
  have hx1 : skewedProportionY y imageHeight * (fftSize : ℝ) / 2 < ((512 : Int) : ℝ) := by
    rw [e]; push_cast; linarith
  have hf0 : 0 ≤ ⌊skewedProportionY y imageHeight * (fftSize : ℝ) / 2⌋ := Int.floor_nonneg.mpr hx0
  have hf1 : ⌊skewedProportionY y imageHeight * (fftSize : ℝ) / 2⌋ < 512 := Int.floor_lt.mpr hx1
  have hhalf : ((fftSize / 2 : Nat) : Int) = 512 := by rw [fftSize_eq]; rfl
  have hhalfN : fftSize / 2 = 512 := by rw [fftSize_eq]
  unfold scopeDataIndex truncToInt jlimit
  rw [if_pos hx0, hhalf, hhalfN, if_neg (by omega), if_neg (by omega)]
  omega

/-- C9: for a spectrum of non-negative values and a row `y` with `1 <= y < imageHeight`
(so that the image height is at least 2), over the reals: the divisor `jmax (localMax, 1e-5)` is
positive, the selected bin lies among the first `fftSize / 2` bins over which `localMax`
is taken, the level lies in `[0, 1]`, and for an all-zero spectrum the level is 0. -/
theorem level_in_unit_interval (scope : Nat → ℝ) (imageHeight y : Int)
    (hnn : ∀ i, 0 ≤ scope i) (hy1 : 1 ≤ y) (hy : y < imageHeight) :
    0 < levelDivisor scope ∧ scopeDataIndex y imageHeight < fftSize / 2 ∧
    0 ≤ level scope y imageHeight ∧ level scope y imageHeight ≤ 1 ∧
    ((∀ i, scope i = 0) → level scope y imageHeight = 0) := by
  obtain ⟨hd0, hdm⟩ := levelDivisor_bounds scope
  have hidx := scopeDataIndex_lt y imageHeight hy1 hy
  have hv := le_trans (le_maxLevelEnd scope _ hidx) hdm
  have hlevel : level scope y imageHeight =
      scope (scopeDataIndex y imageHeight) / levelDivisor scope := by
    unfold level jmap
    simp
  refine ⟨hd0, hidx, ?_, ?_, ?_⟩
  · rw [hlevel]; exact div_nonneg (hnn _) (le_of_lt hd0)
  · rw [hlevel]; exact (div_le_one hd0).mpr hv
  · intro hz
    rw [hlevel, hz]; simp

/-- Witness for C9: the silent spectrum, row 1 of an image of height 2. -/
theorem level_in_unit_interval_witness :
    0 < levelDivisor (fun _ => 0) ∧ scopeDataIndex 1 2 < fftSize / 2 ∧
    0 ≤ level (fun _ => 0) 1 2 ∧ level (fun _ => 0) 1 2 ≤ 1 ∧
    ((∀ i : Nat, (fun _ => (0 : ℝ)) i = 0) → level (fun _ => 0) 1 2 = 0) :=
  level_in_unit_interval (fun _ => 0) 2 1 (fun _ => le_refl 0) (by decide) (by decide)

end SpectrographRenderer
